import Mathlib

/-!
Verification development for the botlet delivery backbone: a shallow
embedding of the message-delivery queue (`services/message_queue.py`),
the rate limiter (`services/rate_limiter.py`), the reminder scheduler
(`services/reminder_service.py`, `services/db_services.py`) and the
database connection pool (`services/db_services.py`), together with
proofs about deduplication, retry scheduling, rate limiting, timezone
handling and idempotence.

Modelling conventions:
* SQLite tables are Lean lists of row structures; `AUTOINCREMENT` ids
  are threaded through the state as a fresh counter.
* Wall-clock instants are integers (seconds) or rationals where the
  source works with `time.time()` floats; within a single operation the
  several `time.time()` / `datetime.now()` calls of the source are
  modelled by one instant, as they are in the source's own reasoning.
* Fallible operations return `Except`/`Option` or a `Bool`/status field
  exactly where the Python returns error outcomes or raises.
-/

namespace Botlet

/-! ### MD5 (model of Python `hashlib.md5(...).hexdigest()`)

`_generate_message_hash` hashes `f"{user_id}:{message}:{webhook_id}"`
with MD5 and uses the lowercase hex digest.  The full MD5 algorithm is
embedded below over `Nat` bytes/words with explicit `% 2^32`. -/

/-- Two to the 32, the word modulus of MD5. -/
def M32 : Nat := 4294967296

/-- Addition modulo 2^32. -/
def add32 (a b : Nat) : Nat := (a + b) % M32

/-- Bitwise complement on 32-bit words. -/
def not32 (a : Nat) : Nat := Nat.xor a 4294967295

/-- Left rotation of a 32-bit word by `s` (0 < s < 32). -/
def rotl32 (x s : Nat) : Nat := ((x <<< s) + (x >>> (32 - s))) % M32

/-- The 64 MD5 round constants, `floor(2^32 * abs(sin(i+1)))`. -/
def md5K : List Nat :=
  [0xd76aa478, 0xe8c7b756, 0x242070db, 0xc1bdceee,
   0xf57c0faf, 0x4787c62a, 0xa8304613, 0xfd469501,
   0x698098d8, 0x8b44f7af, 0xffff5bb1, 0x895cd7be,
   0x6b901122, 0xfd987193, 0xa679438e, 0x49b40821,
   0xf61e2562, 0xc040b340, 0x265e5a51, 0xe9b6c7aa,
   0xd62f105d, 0x02441453, 0xd8a1e681, 0xe7d3fbc8,
   0x21e1cde6, 0xc33707d6, 0xf4d50d87, 0x455a14ed,
   0xa9e3e905, 0xfcefa3f8, 0x676f02d9, 0x8d2a4c8a,
   0xfffa3942, 0x8771f681, 0x6d9d6122, 0xfde5380c,
   0xa4beea44, 0x4bdecfa9, 0xf6bb4b60, 0xbebfbc70,
   0x289b7ec6, 0xeaa127fa, 0xd4ef3085, 0x04881d05,
   0xd9d4d039, 0xe6db99e5, 0x1fa27cf8, 0xc4ac5665,
   0xf4292244, 0x432aff97, 0xab9423a7, 0xfc93a039,
   0x655b59c3, 0x8f0ccc92, 0xffeff47d, 0x85845dd1,
   0x6fa87e4f, 0xfe2ce6e0, 0xa3014314, 0x4e0811a1,
   0xf7537e82, 0xbd3af235, 0x2ad7d2bb, 0xeb86d391]

/-- The 64 MD5 per-round left-rotation amounts. -/
def md5S : List Nat :=
  [7, 12, 17, 22, 7, 12, 17, 22, 7, 12, 17, 22, 7, 12, 17, 22,
   5, 9, 14, 20, 5, 9, 14, 20, 5, 9, 14, 20, 5, 9, 14, 20,
   4, 11, 16, 23, 4, 11, 16, 23, 4, 11, 16, 23, 4, 11, 16, 23,
   6, 10, 15, 21, 6, 10, 15, 21, 6, 10, 15, 21, 6, 10, 15, 21]

/-- UTF-8 encoding of one character (Python `str.encode()` is UTF-8). -/
def utf8Bytes (c : Char) : List Nat :=
  let n := c.toNat
  if n < 0x80 then [n]
  else if n < 0x800 then [0xC0 + n / 64, 0x80 + n % 64]
  else if n < 0x10000 then
    [0xE0 + n / 4096, 0x80 + (n / 64) % 64, 0x80 + n % 64]
  else
    [0xF0 + n / 262144, 0x80 + (n / 4096) % 64, 0x80 + (n / 64) % 64,
     0x80 + n % 64]

/-- UTF-8 bytes of a string. -/
def strBytes (s : String) : List Nat := s.data.flatMap utf8Bytes

/-- A 64-bit little-endian byte encoding, used for the MD5 length field. -/
def le64 (n : Nat) : List Nat := (List.range 8).map fun i => (n >>> (8 * i)) % 256

/-- MD5 padding: append `0x80`, zero-pad to 56 mod 64, then the bit length. -/
def md5Pad (msg : List Nat) : List Nat :=
  msg ++ [0x80] ++ List.replicate ((120 - (msg.length + 1) % 64) % 64) 0 ++
    le64 (8 * msg.length)

/-- Read the `j`-th little-endian 32-bit word of a 64-byte block. -/
def md5Word (block : List Nat) (j : Nat) : Nat :=
  block.getD (4 * j) 0 + 256 * block.getD (4 * j + 1) 0 +
    65536 * block.getD (4 * j + 2) 0 + 16777216 * block.getD (4 * j + 3) 0

/-- One MD5 round (round index `i` in `0..63`) on the state `(a, b, c, d)`. -/
def md5Round (block : List Nat) (st : Nat × Nat × Nat × Nat) (i : Nat) :
    Nat × Nat × Nat × Nat :=
  let (a, b, c, d) := st
  let fg : Nat × Nat :=
    if i < 16 then (Nat.lor (Nat.land b c) (Nat.land (not32 b) d), i)
    else if i < 32 then
      (Nat.lor (Nat.land d b) (Nat.land (not32 d) c), (5 * i + 1) % 16)
    else if i < 48 then (Nat.xor b (Nat.xor c d), (3 * i + 5) % 16)
    else (Nat.xor c (Nat.lor b (not32 d)), (7 * i) % 16)
  let f := (fg.1 + a + md5K.getD i 0 + md5Word block fg.2) % M32
  (d, add32 b (rotl32 f (md5S.getD i 0)), b, c)

/-- Process one 64-byte chunk, adding the round result to the running state. -/
def md5Chunk (st : Nat × Nat × Nat × Nat) (block : List Nat) :
    Nat × Nat × Nat × Nat :=
  let r := (List.range 64).foldl (md5Round block) st
  (add32 st.1 r.1, add32 st.2.1 r.2.1, add32 st.2.2.1 r.2.2.1,
   add32 st.2.2.2 r.2.2.2)

/-- Split a byte list into its 64-byte chunks (the padded MD5 message
length is always a multiple of 64). -/
def chunksOf64 (l : List Nat) : List (List Nat) :=
  (List.range (l.length / 64)).map fun i => (l.drop (64 * i)).take 64

/-- Lowercase hexadecimal digit. -/
def hexDigit (n : Nat) : Char :=
  if n < 10 then Char.ofNat (48 + n) else Char.ofNat (87 + n)

/-- Two lowercase hex characters of a byte. -/
def byteHex (b : Nat) : List Char := [hexDigit (b / 16), hexDigit (b % 16)]

/-- Little-endian hex rendering of a 32-bit word (MD5 digest order). -/
def wordLEHex (w : Nat) : List Char :=
  (List.range 4).flatMap fun i => byteHex ((w >>> (8 * i)) % 256)

/-- MD5 lowercase hex digest of the UTF-8 bytes of a string
(`hashlib.md5(s.encode()).hexdigest()`). -/
def md5hex (s : String) : String :=
  let r := (chunksOf64 (md5Pad (strBytes s))).foldl md5Chunk
    (0x67452301, 0xefcdab89, 0x98badcfe, 0x10325476)
  ⟨wordLEHex r.1 ++ wordLEHex r.2.1 ++ wordLEHex r.2.2.1 ++ wordLEHex r.2.2.2⟩

/-! ### Message queue (`services/message_queue.py`, class `MessageQueue`) -/

/-- Queue item status (`MessageStatus` enum). -/
inductive MessageStatus
  | pending
  | in_progress
  | completed
  | failed
  | cancelled
deriving DecidableEq, Repr

/-- The metadata dict passed to `enqueue_message`.  The repository's call
sites use the keys `webhook_message_id`, `message_id`, `type` and
`source`; a missing key is `none`.  Only `webhook_message_id` is read by
the dedup logic. -/
structure MQMetadata where
  webhook_message_id : Option String := none
  message_id : Option String := none
  type : Option String := none
  source : Option String := none
deriving DecidableEq, Repr

/-- Python truthiness of `metadata.get('webhook_message_id')`:
`None` and the empty string are falsy. -/
def widTruthy : Option String → Bool
  | none => false
  | some w => w ≠ ""

/-- `_generate_message_hash`: MD5 hex digest of
`f"{user_id}:{message}:{webhook_id}"` where
`webhook_id = metadata.get('webhook_message_id', '')`. -/
def generate_message_hash (user_id message : String) (metadata : MQMetadata) :
    String :=
  let webhook_id := metadata.webhook_message_id.getD ""
  md5hex (user_id ++ ":" ++ message ++ ":" ++ webhook_id)

/-- A row of the `message_queue` table as created by `_ensure_tables` and
written by `enqueue_message` / `_process_queue`.  Timestamps are integer
seconds. -/
structure QueueRow where
  id : Nat
  user_id : String
  message : String
  status : MessageStatus
  created_at : Int
  retry_count : Nat := 0
  next_retry : Int
  metadata : MQMetadata
  message_hash : String
  error_message : Option String := none
deriving DecidableEq, Repr

/-- Durable state touched by enqueue/dedup: the `message_queue` table, the
`webhook_messages` table (keyed by `webhook_message_id`), and the
autoincrement counter. -/
structure MQState where
  queue : List QueueRow
  webhooks : List String
  nextId : Nat
deriving DecidableEq, Repr

/-- The empty database produced by `_ensure_tables` on a fresh file. -/
def mqInit : MQState := { queue := [], webhooks := [], nextId := 1 }

/-- `is_duplicate_webhook`: `False` for a falsy id, otherwise a lookup of
the `webhook_messages` table (the in-memory cache mirrors the table and
is not modelled separately). -/
def is_duplicate_webhook (s : MQState) (webhook_message_id : String) : Bool :=
  if webhook_message_id = "" then false
  else s.webhooks.contains webhook_message_id

/-- `enqueue_message`: compute the content hash, reject a truthy duplicate
webhook id, then `INSERT`; a `UNIQUE constraint failed` on `message_hash`
(already present in the table) is caught and reported as `False` with the
transaction rolled back.  The webhook-id row is inserted after the queue
row inside the same commit. -/
def enqueue_message (s : MQState) (user_id message : String)
    (metadata : MQMetadata) (now : Int) : Bool × MQState :=
  if widTruthy metadata.webhook_message_id &&
      is_duplicate_webhook s (metadata.webhook_message_id.getD "") then
    (false, s)
  else if (s.queue.map (·.message_hash)).contains
      (generate_message_hash user_id message metadata) then
    (false, s)
  else
    (true,
      { queue := s.queue ++
          [{ id := s.nextId, user_id := user_id, message := message,
             status := .pending, created_at := now, retry_count := 0,
             next_retry := now, metadata := metadata,
             message_hash := generate_message_hash user_id message metadata }],
        webhooks :=
          if widTruthy metadata.webhook_message_id then
            s.webhooks ++ [metadata.webhook_message_id.getD ""]
          else s.webhooks,
        nextId := s.nextId + 1 })

/-- The fixed retry schedule of `_calculate_next_retry`
(`intervals = [30, 60, 300, 900]`). -/
def retry_intervals : List Int := [30, 60, 300, 900]

/-- `_calculate_next_retry`: always returns the timestamp
`now + intervals[min(retry_count, len(intervals) - 1)]`.  The source
returns it as a non-empty `strftime` string, so the value is always
truthy at the call site; this is modelled as an always-`some` option,
matching the `if next_retry:` test in `_process_queue`. -/
def calculate_next_retry (now : Int) (retry_count : Nat) : Option Int :=
  some (now + retry_intervals.getD (min retry_count (retry_intervals.length - 1)) 0)

/-- The failure branch of `_process_queue` for one message whose delivery
attempt returned `False`: if `_calculate_next_retry` produced a (truthy)
time, re-queue as `pending` with `retry_count + 1`; otherwise mark
`failed` with "Maximum retry attempts exceeded". -/
def process_queue_failure (now : Int) (row : QueueRow) : QueueRow :=
  match calculate_next_retry now row.retry_count with
  | some next_retry =>
      { row with status := .pending, retry_count := row.retry_count + 1,
                 next_retry := next_retry }
  | none =>
      { row with status := .failed,
                 error_message := some "Maximum retry attempts exceeded" }

/-- The columns of the `message_queue` table created by `_ensure_tables`. -/
def messageQueueColumns : List String :=
  ["id", "user_id", "message", "status", "created_at", "updated_at",
   "retry_count", "last_retry", "next_retry", "metadata", "message_hash",
   "error_message"]

/-- Count of rows with a given status (`SELECT status, COUNT(*) ... GROUP BY
status` read back for one status). -/
def statusCount (queue : List QueueRow) (st : MessageStatus) : Nat :=
  (queue.filter (fun r => r.status = st)).length

/-- The snapshot assembled by `get_queue_status` when no query fails. -/
structure QueueSnapshot where
  status_counts : MessageStatus → Nat
  oldest_pending : Option Int
  pending_count : Nat
  recent_failures : Nat

/-- `get_queue_status`: counts by status, the oldest pending row, then
`SELECT COUNT(*) ... WHERE status = 'failed' AND last_attempt > ...`.
The third statement names the column `last_attempt`, which is not among
`messageQueueColumns`, so SQLite fails to prepare it
(`OperationalError: no such column`); the surrounding `except` turns this
into the error dictionary.  The unreachable success branch is closed off
by the decidably false column test. -/
def get_queue_status (queue : List QueueRow) (_now : Int) :
    Except String QueueSnapshot :=
  let pendings := queue.filter (fun r => r.status = .pending)
  let _oldest : Option Int := (pendings.map (·.created_at)).min?
  if h : messageQueueColumns.contains "last_attempt" then
    absurd h (by decide)
  else
    .error "no such column: last_attempt"

/-! ### Connection pool (`services/db_services.py`, class `ConnectionPool`)

Connections are identified by `Nat` handles; `nextConn` is a fresh-handle
counter standing for `sqlite3.connect` producing a new object.  All pool
mutation happens under `cls._lock` in the source, so operations are
modelled as atomic state transitions. -/

/-- Pool state: the idle `_pool` list (most recently appended first, so
`append`/`pop()` is cons/head) and the `_active_connections` set. -/
structure PoolState where
  pool : List Nat
  active : Finset Nat
  nextConn : Nat
deriving DecidableEq

/-- `_max_connections = 5`. -/
def max_connections : Nat := 5

/-- `initialize`: pre-warm the pool with 2 connections (handles 0 and 1;
appended in order, so handle 1 is popped first). -/
def poolInitState : PoolState :=
  { pool := [1, 0], active := ∅, nextConn := 2 }

/-- `get_connection`: pop an idle connection if any; otherwise create a new
one when fewer than `_max_connections` are active, else raise
"Connection pool exhausted".  The returned handle is added to the active
set. -/
def get_connection (s : PoolState) : Except String (Nat × PoolState) :=
  match s.pool with
  | conn :: rest =>
      .ok (conn, { s with pool := rest, active := insert conn s.active })
  | [] =>
      if s.active.card < max_connections then
        .ok (s.nextConn,
          { pool := [], active := insert s.nextConn s.active,
            nextConn := s.nextConn + 1 })
      else
        .error "Connection pool exhausted"

/-- `return_connection`: a no-op for a handle that is not active; otherwise
remove it from the active set and append it to the pool, or close it when
the pool already holds `_max_connections` idle handles. -/
def return_connection (s : PoolState) (conn : Nat) : PoolState :=
  if conn ∈ s.active then
    let active := s.active.erase conn
    if s.pool.length < max_connections then
      { s with pool := conn :: s.pool, active := active }
    else
      { s with active := active }
  else s

/-- States reachable from the initialized pool by any interleaving of
acquires (successful or exhausted) and releases. -/
inductive PoolReachable : PoolState → Prop
  | init : PoolReachable poolInitState
  | acquire {s conn s'} : PoolReachable s →
      get_connection s = .ok (conn, s') → PoolReachable s'
  | acquireFailed {s e} : PoolReachable s →
      get_connection s = .error e → PoolReachable s
  | release {s conn} : PoolReachable s →
      PoolReachable (return_connection s conn)

/-! ### Rate limiter (`services/rate_limiter.py`, class `RateLimiter`)

The limiter is modelled for a single `user_id`: `_request_counts[user]`
is `marks` (each mark is `(timestamp, 1)`, so sums of counts are list
lengths), `_blocked_users[user]` is `memBlock`, and the `user_blocks`
row (primary key `user_id`) is `dbBlock`.  Request timestamps are
rationals (seconds, `time.time()`); the durable `block_end` written via
`datetime('now', '+1 hour')` is truncated to whole seconds, hence the
floor.

Locking: `self._lock` is a plain non-reentrant `threading.Lock`.
`check_rate_limit` evaluates the three limit checks inside
`with self._lock:`, and each violation branch calls `_block_user`, whose
body starts with its own `with self._lock:` — a same-thread acquisition
of an already-held non-reentrant lock, which blocks forever.  So no
violation branch ever records a block or returns its denial tuple: the
call self-deadlocks.  The model makes this explicit: `block_user` takes
the caller's lock state and yields `none` (never returns) when the lock
is already held, and `check_rate_limit` returns an `RLCall` that is
either a returned triple or `deadlock`. -/

/-- Per-user limiter state. -/
structure RLState where
  marks : List ℚ
  memBlock : Option ℚ
  dbBlock : Option (ℚ × String)
  violations : List String
deriving DecidableEq, Repr

/-- Fresh state: no requests recorded, no blocks. -/
def rlInit : RLState := { marks := [], memBlock := none, dbBlock := none,
                          violations := [] }

/-- The triple returned by `check_rate_limit`. -/
structure RLResult where
  allowed : Bool
  reason : Option String
  unblockAt : Option ℚ
deriving DecidableEq, Repr

/-- Outcome of one `check_rate_limit` call: either the function returns a
triple, or it never returns because `_block_user` re-acquired the
non-reentrant lock the caller holds. -/
inductive RLCall
  | returns (res : RLResult)
  | deadlock
deriving DecidableEq, Repr

/-- Window/limit configuration constants of `RateLimiter.__init__`. -/
def WINDOW_SIZE : ℚ := 3600
/-- `MAX_REQUESTS = 100` requests per hour. -/
def MAX_REQUESTS : Nat := 100
/-- `BURST_WINDOW = 60` seconds. -/
def BURST_WINDOW : ℚ := 60
/-- `BURST_LIMIT = 20` requests per minute. -/
def BURST_LIMIT : Nat := 20
/-- `BLOCK_DURATION = 3600` seconds. -/
def BLOCK_DURATION : ℚ := 3600

/-- `_clean_old_requests`: drop marks older than the hourly window. -/
def clean_old_requests (t : ℚ) (marks : List ℚ) : List ℚ :=
  marks.filter fun ts => t - ts < WINDOW_SIZE

/-- `_is_blocked`: consult the in-memory block (deleting it if expired),
then the durable `user_blocks` row with `block_end > now`. -/
def is_blocked (t : ℚ) (s : RLState) : (Bool × Option ℚ) × RLState :=
  let dbCheck : RLState → (Bool × Option ℚ) × RLState := fun s =>
    match s.dbBlock with
    | some (block_end, _) =>
        if t < block_end then ((true, some block_end), s) else ((false, none), s)
    | none => ((false, none), s)
  match s.memBlock with
  | some unblock_time =>
      if t < unblock_time then ((true, some unblock_time), s)
      else dbCheck { s with memBlock := none }
  | none => dbCheck s

/-- `_check_suspicious_patterns`: at least 10 marks in the last 30 s
("rapid_fire") or at least 50 in the last 600 s ("sustained_high"). -/
def check_suspicious_patterns (t : ℚ) (marks : List ℚ) : Option String :=
  if 10 ≤ (marks.filter fun ts => t - ts < 30).length then some "rapid_fire"
  else if 50 ≤ (marks.filter fun ts => t - ts < 600).length then
    some "sustained_high"
  else none

/-- The effects `_block_user` would perform after acquiring the lock:
record the in-memory unblock time under `with self._lock:`, then `INSERT`
the durable block row (`datetime('now', '+1 hour')`, whole seconds) and
the violation log entry.  An existing `user_blocks` row would make the
`INSERT` raise `IntegrityError` after the in-memory update. -/
def block_user_body (t : ℚ) (reason : String) (s : RLState) :
    Except String Unit × RLState :=
  let s := { s with memBlock := some (t + BLOCK_DURATION) }
  match s.dbBlock with
  | some _ => (.error "IntegrityError: user_blocks.user_id", s)
  | none =>
      (.ok (),
        { s with dbBlock := some (((⌊t⌋ : ℚ) + BLOCK_DURATION, reason)),
                 violations := reason :: s.violations })

/-- `_block_user`: its body opens with `with self._lock:`.  The lock is the
non-reentrant `threading.Lock` of the limiter, and every caller in the
repository (the three violation branches of `check_rate_limit`) invokes
`_block_user` while already holding it, so the acquisition blocks the
thread forever: `none` — none of the effects of `block_user_body` occur
and control never comes back.  Only with the lock free would the body
run. -/
def block_user (lockHeldByCaller : Bool) (t : ℚ) (reason : String)
    (s : RLState) : Option (Except String Unit × RLState) :=
  match lockHeldByCaller with
  | true => none
  | false => some (block_user_body t reason s)

/-- `check_rate_limit` for one request at time `t`: clean old marks, deny
while blocked, otherwise record the mark under `with self._lock:` and test
the hourly, burst and suspicious-pattern limits in that order.  Each
violation branch calls `_block_user` with the lock still held, so it never
comes back: the `none` arm is the self-deadlock, with the state as it
stands at the hang (mark appended, no block recorded).  The `some` arms
keep the source's subsequent `return` statements but are unreachable,
since the lock is held at every call site. -/
def check_rate_limit (t : ℚ) (s : RLState) : RLCall × RLState :=
  let s := { s with marks := clean_old_requests t s.marks }
  let blocked := is_blocked t s
  let s := blocked.2
  if blocked.1.1 then
    (.returns ⟨false, some "User is blocked", blocked.1.2⟩, s)
  else
    let marks := s.marks ++ [t]
    let s := { s with marks := marks }
    let hour_requests := (marks.filter fun ts => t - ts < WINDOW_SIZE).length
    if MAX_REQUESTS < hour_requests then
      match block_user true t "Exceeded hourly limit" s with
      | none => (.deadlock, s)
      | some r =>
          (.returns ⟨false, some "Rate limit exceeded",
            some (t + BLOCK_DURATION)⟩, r.2)
    else
      let burst_requests := (marks.filter fun ts => t - ts < BURST_WINDOW).length
      if BURST_LIMIT < burst_requests then
        match block_user true t "Exceeded burst limit" s with
        | none => (.deadlock, s)
        | some r =>
            (.returns ⟨false, some "Burst limit exceeded",
              some (t + BLOCK_DURATION)⟩, r.2)
      else
        match check_suspicious_patterns t marks with
        | some pattern =>
            match block_user true t
                ("Suspicious pattern detected: " ++ pattern) s with
            | none => (.deadlock, s)
            | some r =>
                (.returns ⟨false, some "Suspicious activity detected",
                  some (t + BLOCK_DURATION)⟩, r.2)
        | none => (.returns ⟨true, none, none⟩, s)

/-- Run `check_rate_limit` over a sequence of request times from one
thread, collecting the per-request outcomes.  A deadlocked call hangs the
thread, so the remaining requests are never processed: the run truncates
at the first `deadlock`. -/
def run_checks : List ℚ → RLState → List RLCall × RLState
  | [], s => ([], s)
  | t :: ts, s =>
      let r := check_rate_limit t s
      match r.1 with
      | .deadlock => ([.deadlock], r.2)
      | .returns res =>
          let rest := run_checks ts r.2
          (.returns res :: rest.1, rest.2)

/-- All request timestamps lie within the 60-second burst window anchored
at (and ending with) `tl`. -/
def rlWindow (tl : ℚ) (ts : List ℚ) : Prop :=
  ∀ a ∈ ts, tl - 60 < a ∧ a ≤ tl

/-- State of a fresh single-user trace that has not deadlocked yet: since
`_block_user` never completes, no in-memory or durable block can ever
exist, and the marks are exactly the processed timestamps. -/
def RLFresh (processed : List ℚ) (s : RLState) : Prop :=
  s.memBlock = none ∧ s.dbBlock = none ∧ s.marks = processed

/-! ### Civil time, `strptime` and `pytz` (models of the Python stdlib
pieces used by the reminder code)

`datetime.strptime(s, "%Y-%m-%d %H:%M")` is embedded by `parseSchedTime`
following CPython's `_strptime` regexes: `%Y` is exactly four digits,
`%m`/`%d`/`%H`/`%M` are one or two digits with their numeric ranges, a
literal whitespace in the format matches one or more whitespace
characters, nothing may remain unconverted, and the `datetime`
constructor rejects a day beyond the month's length.

`pytz.timezone(...).localize(naive).astimezone(pytz.UTC)` is embedded by
`localToUTCSeconds` over a small timezone table covering the zones the
claims exercise.  `America/New_York` uses the post-2007 United States
daylight-saving rule (EDT from the second Sunday of March 02:00 to the
first Sunday of November 02:00); `localize` without `is_dst` resolves
nonexistent and ambiguous local times to standard time (`is_dst=False`),
so a naive time counts as EDT exactly when it is at or after 03:00 on
the spring-forward day and strictly before 01:00 on the fall-back day. -/

/-- A parsed naive wall-clock datetime. -/
structure LocalDT where
  year : Nat
  month : Nat
  day : Nat
  hour : Nat
  minute : Nat
deriving DecidableEq, Repr

/-- Gregorian leap year. -/
def isLeap (y : Nat) : Bool := y % 4 = 0 && (y % 100 ≠ 0 || y % 400 = 0)

/-- Days in a month. -/
def daysInMonth (y m : Nat) : Nat :=
  if m = 2 then (if isLeap y then 29 else 28)
  else if m = 4 || m = 6 || m = 9 || m = 11 then 30
  else 31

/-- Julian day number of a Gregorian calendar date (valid for y ≥ 1). -/
def dayNumber (y m d : Nat) : Nat :=
  let a := (14 - m) / 12
  let ym := y + 4800 - a
  let mm := m + 12 * a
  d + (153 * (mm - 3) + 2) / 5 + 365 * ym + ym / 4 - ym / 100 + ym / 400 - 32045

/-- Day of week with 0 = Sunday. -/
def weekdaySun0 (y m d : Nat) : Nat := (dayNumber y m d + 1) % 7

/-- Day of month of the first Sunday of month `m` in year `y`. -/
def firstSunday (y m : Nat) : Nat := 1 + (7 - weekdaySun0 y m 1) % 7

/-- Lexicographic key for comparing naive times within one year. -/
def yearKey (m d h min : Nat) : Nat := ((m * 32 + d) * 24 + h) * 60 + min

/-- Whether a naive local America/New_York time is interpreted as daylight
time under `pytz` `localize` with the default `is_dst=False`. -/
def nyIsDST (dt : LocalDT) : Bool :=
  let key := yearKey dt.month dt.day dt.hour dt.minute
  yearKey 3 (firstSunday dt.year 3 + 7) 3 0 ≤ key &&
    key < yearKey 11 (firstSunday dt.year 11) 1 0

/-- The timezones resolvable in this model. -/
inductive TZ
  | utc
  | newYork
  | london
deriving DecidableEq, Repr

/-- UTC offset in minutes of a localized naive time. -/
def tzOffsetMinutes : TZ → LocalDT → Int
  | .utc, _ => 0
  | .newYork, dt => if nyIsDST dt then -240 else -300
  | .london, dt =>
      let key := yearKey dt.month dt.day dt.hour dt.minute
      if yearKey 3 (31 - weekdaySun0 dt.year 3 31) 2 0 ≤ key &&
          key < yearKey 10 (31 - weekdaySun0 dt.year 10 31) 1 0
      then 60 else 0

/-- The fragment of the `pytz` zone table used by the repository's data:
any other string raises `UnknownTimeZoneError`. -/
def tzResolve : String → Option TZ
  | "UTC" => some .utc
  | "America/New_York" => some .newYork
  | "Europe/London" => some .london
  | _ => none

/-- Minutes since the Unix epoch of a naive datetime read as UTC. -/
def epochMinutes (dt : LocalDT) : Int :=
  ((dayNumber dt.year dt.month dt.day : Int) - 2440588) * 1440 +
    dt.hour * 60 + dt.minute

/-- Seconds since the epoch of `tz.localize(dt).astimezone(pytz.UTC)`. -/
def localToUTCSeconds (tz : TZ) (dt : LocalDT) : Int :=
  (epochMinutes dt - tzOffsetMinutes tz dt) * 60

/-- One-or-more digits, returning the count consumed and the value. -/
def takeDigits (cs : List Char) : Nat × Nat × List Char :=
  let ds := cs.takeWhile Char.isDigit
  (ds.length, ds.foldl (fun n c => 10 * n + (c.toNat - 48)) 0,
   cs.dropWhile Char.isDigit)

/-- Literal whitespace in a `strptime` format: one or more whitespace
characters. -/
def dropWs (cs : List Char) : Nat × List Char :=
  let ws := cs.takeWhile fun c => c = ' ' || c = '\t' || c = '\n' || c = '\r'
  (ws.length, cs.dropWhile fun c => c = ' ' || c = '\t' || c = '\n' || c = '\r')

/-- `datetime.strptime(s, "%Y-%m-%d %H:%M")`, including the range checks of
the regex and of the `datetime` constructor; `none` is the `ValueError`. -/
def parseSchedTime (s : String) : Option LocalDT :=
  let cs := s.data
  let (ny, y, cs) := takeDigits cs
  if ny ≠ 4 then none else
  match cs with
  | '-' :: cs =>
    let (nm, m, cs) := takeDigits cs
    if nm = 0 || 2 < nm || m < 1 || 12 < m then none else
    match cs with
    | '-' :: cs =>
      let (nd, d, cs) := takeDigits cs
      if nd = 0 || 2 < nd || d < 1 || 31 < d then none else
      let (nw, cs) := dropWs cs
      if nw = 0 then none else
      let (nh, h, cs) := takeDigits cs
      if nh = 0 || 2 < nh || 23 < h then none else
      match cs with
      | ':' :: cs =>
        let (nmin, mi, cs) := takeDigits cs
        if nmin = 0 || 2 < nmin || 59 < mi then none else
        if cs ≠ [] then none else
        if daysInMonth y m < d then none else
        some ⟨y, m, d, h, mi⟩
      | _ => none
    | _ => none
  | _ => none

/-! ### Reminders (`services/db_services.py` and
`services/reminder_service.py`)

A row of the `reminders` table as created by
`db_services.ensure_reminders_table` and written by `add_reminder`. -/

/-- A `reminders` row.  `scheduled_time` is the stored wall-clock string,
`original_timezone_str` the timezone recorded at creation, `is_sent` the
0/1 flag. -/
structure ReminderRow where
  id : Nat
  user_id : String
  reminder_text : String
  scheduled_time : String
  original_timezone_str : String
  reminder_type : String := "reminder"
  is_sent : Nat := 0
deriving DecidableEq, Repr

/-- Status values returned by `add_reminder`. -/
inductive RStatus
  | success
  | error
deriving DecidableEq, Repr

/-- `add_reminder`: validate only that `scheduled_time` parses with
`strptime(..., "%Y-%m-%d %H:%M")`; on `ValueError` return the error
outcome without inserting; otherwise insert the row with `is_sent = 0`.
The timezone string is stored as given, without validation. -/
def add_reminder (table : List ReminderRow) (nextId : Nat)
    (user_id reminder_text scheduled_time original_timezone_str : String)
    (reminder_type : String := "reminder") :
    (RStatus × String) × List ReminderRow :=
  match parseSchedTime scheduled_time with
  | none =>
      ((.error, "Invalid time format for reminder. Please use YYYY-MM-DD HH:MM."),
       table)
  | some _ =>
      ((.success, "Reminder set for " ++ scheduled_time ++ " (your local time)."),
       table ++ [{ id := nextId, user_id := user_id,
                   reminder_text := reminder_text,
                   scheduled_time := scheduled_time,
                   original_timezone_str := original_timezone_str,
                   reminder_type := reminder_type, is_sent := 0 }])

/-- The `WHERE id = ? AND is_sent = 0` predicate of `mark_reminder_sent`. -/
def markSentMatches (reminder_id : Nat) (r : ReminderRow) : Bool :=
  r.id = reminder_id && r.is_sent = 0

/-- The per-row effect of `UPDATE reminders SET is_sent = 1 WHERE id = ?
AND is_sent = 0`. -/
def markSentFn (reminder_id : Nat) (r : ReminderRow) : ReminderRow :=
  if markSentMatches reminder_id r then { r with is_sent := 1 } else r

/-- `mark_reminder_sent`: `UPDATE reminders SET is_sent = 1 WHERE id = ?
AND is_sent = 0`; reports whether any row was updated. -/
def mark_reminder_sent (table : List ReminderRow) (reminder_id : Nat) :
    Bool × List ReminderRow :=
  let rowcount := (table.filter (markSentMatches reminder_id)).length
  (0 < rowcount, table.map (markSentFn reminder_id))

/-- An entry of the list built by `get_pending_reminders`. -/
structure DueEntry where
  id : Nat
  user_id : String
  reminder_text : String
  scheduled_time_utc : Int
  reminder_type : String
  is_sent : Nat
deriving DecidableEq, Repr

/-- The timezone string used for a row:
`original_timezone_str if original_timezone_str else "UTC"`. -/
def rowTzString (r : ReminderRow) : String :=
  if r.original_timezone_str = "" then "UTC" else r.original_timezone_str

/-- The per-row selection of `get_pending_reminders`: only unsent rows are
fetched (`WHERE is_sent = 0`); the stored wall-clock string is parsed,
localized in the stored timezone and converted to UTC, and the row is due
exactly when that instant is at or before the current UTC time.  A
`ValueError` from `strptime` skips the row; an unknown timezone also
yields no entry (its side effect is `rowBadTz` below). -/
def rowSelect (now : Int) (r : ReminderRow) : Option DueEntry :=
  if r.is_sent ≠ 0 then none
  else
    match tzResolve (rowTzString r) with
    | none => none
    | some tz =>
        match parseSchedTime r.scheduled_time with
        | none => none
        | some dt =>
            if localToUTCSeconds tz dt ≤ now then
              some ⟨r.id, r.user_id, r.reminder_text, localToUTCSeconds tz dt,
                    r.reminder_type, r.is_sent⟩
            else none

/-- Rows whose timezone lookup raises (caught by the generic handler of
`get_pending_reminders`, which calls `mark_reminder_sent` on them). -/
def rowBadTz (r : ReminderRow) : Bool :=
  r.is_sent = 0 && (tzResolve (rowTzString r)).isNone

/-- `get_pending_reminders`: the due list from the fetched snapshot, plus
the table after the error handler has marked unparseable-timezone rows
sent. -/
def get_pending_reminders (table : List ReminderRow) (now : Int) :
    List DueEntry × List ReminderRow :=
  ((table.filterMap (rowSelect now)),
   (table.filter rowBadTz).foldl (fun t r => (mark_reminder_sent t r.id).2) table)

/-- Outcome of one `send_whatsapp_message` call as seen by the reminder
loop: a success result, a non-success result, or a raised exception
(caught by the `except` around the send). -/
inductive SendOutcome
  | success
  | failure
  | exn
deriving DecidableEq, Repr

/-- The body of the `_check_reminders` loop for one due entry: skip it if
the snapshot already says sent; otherwise attempt the send and — in the
`finally` block, whatever `outcome` was — mark the reminder sent.  Returns
the ids attempted so far and the evolving table. -/
def processDueEntry (outcome : Nat → SendOutcome)
    (acc : List Nat × List ReminderRow) (e : DueEntry) :
    List Nat × List ReminderRow :=
  if e.is_sent = 1 then acc
  else
    let _sendResult := outcome e.id
    (acc.1 ++ [e.id], (mark_reminder_sent acc.2 e.id).2)

/-- One pass of the `_check_reminders` loop: fetch the due snapshot (with
`get_pending_reminders`'s own marking side effects) and process each due
entry in order.  `outcome` gives the notifier result for each reminder
id. -/
def check_reminders_once (table : List ReminderRow) (now : Int)
    (outcome : Nat → SendOutcome) : List Nat × List ReminderRow :=
  let fetched := get_pending_reminders table now
  fetched.1.foldl (processDueEntry outcome) ([], fetched.2)

/-- Well-formedness of the stored flag: every row's `is_sent` is the 0 or 1
that the repository ever writes. -/
def SentWF (table : List ReminderRow) : Prop :=
  ∀ row ∈ table, row.is_sent = 0 ∨ row.is_sent = 1

/-- All rows with the given id are marked sent. -/
def AllSentId (rid : Nat) (table : List ReminderRow) : Prop :=
  ∀ row ∈ table, row.id = rid → row.is_sent = 1

/-! ## Theorems -/

set_option maxRecDepth 8000 in
/-- MD5 sanity check against the standard test vector. -/
theorem md5hex_abc : md5hex "abc" = "900150983cd24fb0d6963f7d28e17f72" := rfl

/-- A row already touched by the update no longer matches its predicate. -/
theorem markSentMatches_markSentFn (rid : Nat) (r : ReminderRow) :
    markSentMatches rid (markSentFn rid r) = false := by
  unfold markSentFn
  cases hm : markSentMatches rid r with
  | false => simp [hm]
  | true => simp [markSentMatches]

/-- The row update of `mark_reminder_sent` is idempotent. -/
theorem markSentFn_idem (rid : Nat) (r : ReminderRow) :
    markSentFn rid (markSentFn rid r) = markSentFn rid r := by
  show (if markSentMatches rid (markSentFn rid r) = true then
      { markSentFn rid r with is_sent := 1 } else markSentFn rid r) =
    markSentFn rid r
  rw [markSentMatches_markSentFn]
  simp

/-- Enqueueing the same `(user_id, message, webhook_message_id)` again after
a successful enqueue is rejected with `False` and leaves the whole state
unchanged, for any second metadata agreeing on `webhook_message_id`. -/
theorem enqueue_again_rejected
    (s : MQState) (u m : String) (md md2 : MQMetadata) (now now2 : Int)
    (hw : md.webhook_message_id = md2.webhook_message_id)
    (h : (enqueue_message s u m md now).1 = true) :
    enqueue_message (enqueue_message s u m md now).2 u m md2 now2 =
      (false, (enqueue_message s u m md now).2) := by
  have hhash : generate_message_hash u m md2 = generate_message_hash u m md := by
    unfold generate_message_hash
    rw [hw]
  by_cases hb : (widTruthy md.webhook_message_id &&
      is_duplicate_webhook s (md.webhook_message_id.getD "")) = true
  · exfalso
    have hfst : enqueue_message s u m md now = (false, s) := by
      unfold enqueue_message
      rw [if_pos hb]
    rw [hfst] at h
    exact Bool.false_ne_true h
  · by_cases hc : ((s.queue.map (·.message_hash)).contains
        (generate_message_hash u m md)) = true
    · exfalso
      have hfst : enqueue_message s u m md now = (false, s) := by
        unfold enqueue_message
        rw [if_neg hb, if_pos hc]
      rw [hfst] at h
      exact Bool.false_ne_true h
    · have hs1 : (enqueue_message s u m md now).2 =
          { queue := s.queue ++
              [{ id := s.nextId, user_id := u, message := m,
                 status := .pending, created_at := now, retry_count := 0,
                 next_retry := now, metadata := md,
                 message_hash := generate_message_hash u m md }],
            webhooks :=
              if widTruthy md.webhook_message_id then
                s.webhooks ++ [md.webhook_message_id.getD ""]
              else s.webhooks,
            nextId := s.nextId + 1 } := by
        unfold enqueue_message
        rw [if_neg hb, if_neg hc]
      set s1 := (enqueue_message s u m md now).2 with hs1def
      have hqmem : (s1.queue.map (·.message_hash)).contains
          (generate_message_hash u m md2) = true := by
        rw [hs1, hhash]
        simp
      unfold enqueue_message
      cases hwt : widTruthy md.webhook_message_id with
      | true =>
          obtain ⟨w, hww, hwne⟩ : ∃ w, md.webhook_message_id = some w ∧
              w ≠ "" := by
            cases hmw : md.webhook_message_id with
            | none => simp [widTruthy, hmw] at hwt
            | some w =>
                refine ⟨w, rfl, ?_⟩
                simpa [widTruthy, hmw] using hwt
          have hdup : is_duplicate_webhook s1 w = true := by
            unfold is_duplicate_webhook
            rw [if_neg hwne, hs1, hww]
            simp [widTruthy, hwne]
          have hC1 : (widTruthy md2.webhook_message_id &&
              is_duplicate_webhook s1 (md2.webhook_message_id.getD "")) =
                true := by
            rw [← hw, hww]
            simp [widTruthy, hwne, hdup]
          rw [if_pos hC1]
      | false =>
          have hC1 : ¬((widTruthy md2.webhook_message_id &&
              is_duplicate_webhook s1 (md2.webhook_message_id.getD "")) =
                true) := by
            rw [← hw]
            simp [hwt]
          rw [if_neg hC1, if_pos hqmem]

/-- Claim C1: after a first `enqueue_message` with a given
`(user_id, message, webhook_message_id)` inserts a row, a second call with
the identical arguments (hence the identical content hash) returns `False`
as a normal duplicate outcome and inserts nothing: the message queue table
(indeed the whole state) is unchanged. -/
theorem enqueue_message_duplicate_second_call
    (s : MQState) (u m : String) (md : MQMetadata) (now now2 : Int)
    (h : (enqueue_message s u m md now).1 = true) :
    (enqueue_message (enqueue_message s u m md now).2 u m md now2).1 =
        false ∧
      (enqueue_message (enqueue_message s u m md now).2 u m md now2).2.queue =
        (enqueue_message s u m md now).2.queue := by
  have := enqueue_again_rejected s u m md md now now2 rfl h
  rw [this]
  exact ⟨rfl, rfl⟩

/-- Claim C1 witness: a concrete first enqueue succeeds and the identical
second enqueue is rejected with the queue table unchanged. -/
theorem enqueue_message_duplicate_second_call_witness :
    (enqueue_message mqInit "447700900000" "hello"
        { webhook_message_id := some "wamid.A1" } 10).1 = true ∧
      ((enqueue_message
          (enqueue_message mqInit "447700900000" "hello"
            { webhook_message_id := some "wamid.A1" } 10).2
          "447700900000" "hello"
          { webhook_message_id := some "wamid.A1" } 25).1 = false ∧
        (enqueue_message
          (enqueue_message mqInit "447700900000" "hello"
            { webhook_message_id := some "wamid.A1" } 10).2
          "447700900000" "hello"
          { webhook_message_id := some "wamid.A1" } 25).2.queue =
        (enqueue_message mqInit "447700900000" "hello"
            { webhook_message_id := some "wamid.A1" } 10).2.queue) := by
  constructor
  · rfl
  · exact enqueue_message_duplicate_second_call mqInit "447700900000" "hello"
      { webhook_message_id := some "wamid.A1" } 10 25 (by rfl)

/-- Claim C10: the duplicate-detection hash reads only
`(user_id, message, webhook_message_id)`: two metadata dictionaries that
agree on `webhook_message_id` produce the same hash whatever their other
fields, and an enqueue whose metadata differs only in such fields is still
rejected as a duplicate of an earlier one. -/
theorem message_hash_ignores_other_metadata
    (s : MQState) (u m : String) (md1 md2 : MQMetadata) (now now2 : Int)
    (hw : md1.webhook_message_id = md2.webhook_message_id) :
    generate_message_hash u m md1 = generate_message_hash u m md2 ∧
      ((enqueue_message s u m md1 now).1 = true →
        enqueue_message (enqueue_message s u m md1 now).2 u m md2 now2 =
          (false, (enqueue_message s u m md1 now).2)) := by
  constructor
  · unfold generate_message_hash
    rw [hw]
  · exact fun h => enqueue_again_rejected s u m md1 md2 now now2 hw h

/-- Claim C10 witness: metadata differing in `type` and `source` but with
the same `webhook_message_id` hash identically, and the second enqueue is
rejected. -/
theorem message_hash_ignores_other_metadata_witness :
    (generate_message_hash "447700900000" "hi"
        { webhook_message_id := some "wamid.B2", type := some "text" } =
      generate_message_hash "447700900000" "hi"
        { webhook_message_id := some "wamid.B2", type := some "audio",
          source := some "webhook" }) ∧
      enqueue_message
          (enqueue_message mqInit "447700900000" "hi"
            { webhook_message_id := some "wamid.B2", type := some "text" }
            3).2
          "447700900000" "hi"
          { webhook_message_id := some "wamid.B2", type := some "audio",
            source := some "webhook" } 7 =
        (false,
          (enqueue_message mqInit "447700900000" "hi"
            { webhook_message_id := some "wamid.B2", type := some "text" }
            3).2) := by
  have H := message_hash_ignores_other_metadata mqInit "447700900000" "hi"
    { webhook_message_id := some "wamid.B2", type := some "text" }
    { webhook_message_id := some "wamid.B2", type := some "audio",
      source := some "webhook" } 3 7 rfl
  exact ⟨H.1, H.2 (by rfl)⟩

/-- Claim C2: the failure branch of the processor always re-queues the item
as `pending` with `retry_count + 1` and the delay
`[30, 60, 300, 900][min(retry_count, 3)]`; because `_calculate_next_retry`
always returns a truthy timestamp, the item never transitions to `failed`
through retry exhaustion — in particular the 5th consecutive failure
(`retry_count = 4`) schedules yet another retry at `now + 900`. -/
theorem process_queue_failure_always_requeues (now : Int) (row : QueueRow) :
    (process_queue_failure now row).status = .pending ∧
      (process_queue_failure now row).retry_count = row.retry_count + 1 ∧
      (process_queue_failure now row).next_retry =
        now + retry_intervals.getD (min row.retry_count 3) 0 ∧
      (process_queue_failure now row).status ≠ .failed ∧
      (process_queue_failure now { row with retry_count := 4 }).status =
        .pending ∧
      (process_queue_failure now { row with retry_count := 4 }).next_retry =
        now + 900 := by
  refine ⟨rfl, rfl, rfl, by simp [process_queue_failure, calculate_next_retry],
    rfl, rfl⟩

/-- Partition fact: the per-status counts of the `message_queue` table sum
to the number of rows. -/
theorem statusCounts_sum (queue : List QueueRow) :
    statusCount queue .pending + statusCount queue .in_progress +
        statusCount queue .completed + statusCount queue .failed +
        statusCount queue .cancelled = queue.length := by
  induction queue with
  | nil => simp [statusCount]
  | cons r t ih =>
      cases hst : r.status <;>
        simp [statusCount, List.filter_cons, hst] at ih ⊢ <;> omega

/-- Claim C6: the queue snapshot never returns the advertised counts: its
recent-failures query names the column `last_attempt`, absent from the
`message_queue` schema of `_ensure_tables`, so `get_queue_status` always
yields the error outcome; the per-status counts its first query would
produce do sum to the total row count. -/
theorem get_queue_status_always_errors (queue : List QueueRow) (now : Int) :
    get_queue_status queue now = .error "no such column: last_attempt" ∧
      messageQueueColumns.contains "last_attempt" = false ∧
      statusCount queue .pending + statusCount queue .in_progress +
          statusCount queue .completed + statusCount queue .failed +
          statusCount queue .cancelled = queue.length := by
  exact ⟨rfl, by decide, statusCounts_sum queue⟩

/-- Claim C7 counterexample: a create-reminder call with a parseable time
but a timezone string that `pytz` does not recognize is accepted with a
success outcome and stored, not rejected. -/
theorem add_reminder_unknown_timezone_stored :
    tzResolve "Not/AZone" = none ∧
      (add_reminder [] 1 "u1" "call mum" "2025-06-01 09:00" "Not/AZone").1.1 =
        .success ∧
      (add_reminder [] 1 "u1" "call mum" "2025-06-01 09:00" "Not/AZone").2 =
        [{ id := 1, user_id := "u1", reminder_text := "call mum",
           scheduled_time := "2025-06-01 09:00",
           original_timezone_str := "Not/AZone",
           reminder_type := "reminder", is_sent := 0 }] :=
  ⟨rfl, rfl, rfl⟩

/-- Claim C7 (amended): a create-reminder call whose `scheduled_time` does
not parse in the `YYYY-MM-DD HH:MM` format is rejected with a user-facing
error outcome and stores nothing; the timezone string is not validated at
creation. -/
theorem add_reminder_rejects_malformed_time
    (table : List ReminderRow) (nextId : Nat)
    (u x sched tz rt : String) (h : parseSchedTime sched = none) :
    add_reminder table nextId u x sched tz rt =
      ((.error,
        "Invalid time format for reminder. Please use YYYY-MM-DD HH:MM."),
       table) := by
  simp [add_reminder, h]

/-- Claim C7 witness: a malformed time string is rejected and the table is
untouched. -/
theorem add_reminder_rejects_malformed_time_witness :
    add_reminder [] 1 "u1" "call mum" "tomorrow at 9" "UTC" "reminder" =
      ((.error,
        "Invalid time format for reminder. Please use YYYY-MM-DD HH:MM."),
       []) :=
  add_reminder_rejects_malformed_time [] 1 "u1" "call mum" "tomorrow at 9"
    "UTC" "reminder" rfl

/-- Claim C9: `mark_reminder_sent` is idempotent on the store — a second
application matches no unsent row, changes nothing and reports `False`,
while the first application on an existing unsent reminder reports
`True`. -/
theorem mark_reminder_sent_idempotent (table : List ReminderRow) (rid : Nat) :
    mark_reminder_sent (mark_reminder_sent table rid).2 rid =
        (false, (mark_reminder_sent table rid).2) ∧
      (∀ r ∈ table, r.id = rid → r.is_sent = 0 →
        (mark_reminder_sent table rid).1 = true) := by
  constructor
  · have hfilter :
        ((mark_reminder_sent table rid).2.filter (markSentMatches rid)) = [] := by
      rw [List.filter_eq_nil_iff]
      simp only [mark_reminder_sent, List.mem_map]
      rintro a ⟨r, _, rfl⟩
      exact fun hcon => by
        rw [markSentMatches_markSentFn rid r] at hcon
        exact Bool.false_ne_true hcon
    have h1 : (mark_reminder_sent (mark_reminder_sent table rid).2 rid).1 =
        false := by
      have hlen0 : ((mark_reminder_sent table rid).2.filter
          (markSentMatches rid)).length = 0 := by
        rw [hfilter]
        rfl
      show decide (0 < ((mark_reminder_sent table rid).2.filter
          (markSentMatches rid)).length) = false
      rw [hlen0]
      rfl
    have h2 : (mark_reminder_sent (mark_reminder_sent table rid).2 rid).2 =
        (mark_reminder_sent table rid).2 := by
      simp only [mark_reminder_sent, List.map_map]
      exact List.map_congr_left fun r _ => markSentFn_idem rid r
    exact Prod.ext h1 h2
  · intro r hr hid hsent
    have hmem : r ∈ table.filter (markSentMatches rid) := by
      simp [List.mem_filter, markSentMatches, hr, hid, hsent]
    have hlen : 0 < (table.filter (markSentMatches rid)).length :=
      List.length_pos.mpr (List.ne_nil_of_mem hmem)
    simp [mark_reminder_sent, hlen]

/-- Size invariant of the connection pool: idle plus active handles never
exceed `_max_connections`. -/
theorem pool_size_invariant (s : PoolState) (h : PoolReachable s) :
    s.pool.length + s.active.card ≤ max_connections := by
  induction h with
  | init => simp [poolInitState, max_connections]
  | acquire hr hg ih =>
      rename_i s conn s2
      unfold get_connection at hg
      cases hpool : s.pool with
      | cons c rest =>
          rw [hpool] at hg
          simp only [] at hg
          obtain ⟨-, rfl⟩ : c = conn ∧
              ({ s with pool := rest, active := insert c s.active } = s2) := by
            cases hg
            exact ⟨rfl, rfl⟩
          have hcard := Finset.card_insert_le c s.active
          have hlen : s.pool.length = rest.length + 1 := by
            rw [hpool]
            simp
          simp only []
          omega
      | nil =>
          rw [hpool] at hg
          simp only [] at hg
          by_cases hlt : s.active.card < max_connections
          · rw [if_pos hlt] at hg
            obtain ⟨-, rfl⟩ : s.nextConn = conn ∧
                ({ pool := [], active := insert s.nextConn s.active,
                   nextConn := s.nextConn + 1 : PoolState } = s2) := by
              cases hg
              exact ⟨rfl, rfl⟩
            have hcard := Finset.card_insert_le s.nextConn s.active
            simp only [List.length_nil]
            omega
          · rw [if_neg hlt] at hg
            cases hg
  | acquireFailed hr hg ih => exact ih
  | release hr ih =>
      rename_i s conn
      unfold return_connection
      split_ifs with h1 h2
      · have hmem : 1 ≤ s.active.card := Finset.card_pos.mpr ⟨conn, h1⟩
        simp only [List.length_cons, Finset.card_erase_of_mem h1]
        omega
      · have hle := Finset.card_erase_le (a := conn) (s := s.active)
        simp only []
        omega
      · exact ih

/-- Claim C8: the pool never has more than its fixed capacity of 5 handles
concurrently active; an acquire while 5 are active (the idle pool is then
necessarily empty) fails with the pool-exhausted error and changes
nothing, and releasing an active handle puts it back in the pool so that
the next acquire succeeds with that handle. -/
theorem connection_pool_bounded (s : PoolState) (h : PoolReachable s) :
    s.active.card ≤ max_connections ∧
      (s.active.card = max_connections →
        s.pool = [] ∧
          get_connection s = .error "Connection pool exhausted") ∧
      (∀ conn ∈ s.active, s.active.card = max_connections →
        ∃ s2, get_connection (return_connection s conn) = .ok (conn, s2)) := by
  have hinv := pool_size_invariant s h
  have hpool : s.active.card = max_connections → s.pool = [] := fun hfull =>
    List.length_eq_zero.mp (by omega)
  refine ⟨by omega, fun hfull => ⟨hpool hfull, ?_⟩, fun conn hconn hfull => ?_⟩
  · unfold get_connection
    rw [hpool hfull]
    simp only []
    rw [if_neg (by omega)]
  · unfold return_connection
    rw [if_pos hconn, hpool hfull,
      if_pos (by simp [max_connections] : ([] : List Nat).length <
        max_connections)]
    exact ⟨_, rfl⟩

/-- Claim C8 witness: after five acquires from the initialized pool, the
five handles are active, a sixth acquire fails leaving the pool empty, and
releasing handle 4 makes the next acquire succeed with it. -/
theorem connection_pool_bounded_witness :
    (PoolState.mk [] (insert 4 (insert 3 (insert 2 (insert 0 (insert 1 ∅)))))
        5).active.card ≤ max_connections ∧
      ((PoolState.mk []
          (insert 4 (insert 3 (insert 2 (insert 0 (insert 1 ∅))))) 5).pool =
          [] ∧
        get_connection
            (PoolState.mk []
              (insert 4 (insert 3 (insert 2 (insert 0 (insert 1 ∅))))) 5) =
          .error "Connection pool exhausted") ∧
      (∃ s2, get_connection
          (return_connection
            (PoolState.mk []
              (insert 4 (insert 3 (insert 2 (insert 0 (insert 1 ∅))))) 5) 4) =
        .ok (4, s2)) := by
  have h1 : PoolReachable
      (PoolState.mk [0] (insert 1 ∅) 2) :=
    PoolReachable.acquire PoolReachable.init rfl
  have h2 : PoolReachable (PoolState.mk [] (insert 0 (insert 1 ∅)) 2) :=
    PoolReachable.acquire h1 rfl
  have h3 : PoolReachable
      (PoolState.mk [] (insert 2 (insert 0 (insert 1 ∅))) 3) :=
    PoolReachable.acquire h2 rfl
  have h4 : PoolReachable
      (PoolState.mk [] (insert 3 (insert 2 (insert 0 (insert 1 ∅)))) 4) :=
    PoolReachable.acquire h3 rfl
  have h5 : PoolReachable
      (PoolState.mk []
        (insert 4 (insert 3 (insert 2 (insert 0 (insert 1 ∅))))) 5) :=
    PoolReachable.acquire h4 rfl
  obtain ⟨ha, hb, hc⟩ := connection_pool_bounded _ h5
  exact ⟨ha, hb (by decide), hc 4 (by decide) (by decide)⟩

/-- Claim C9 witness: marking a concrete unsent reminder reports `True`,
and a second marking reports `False` and leaves the table unchanged. -/
theorem mark_reminder_sent_idempotent_witness :
    (mark_reminder_sent
        (mark_reminder_sent
          [{ id := 1, user_id := "u1", reminder_text := "call mum",
             scheduled_time := "2025-06-01 09:00",
             original_timezone_str := "UTC" }] 1).2 1 =
      (false,
        (mark_reminder_sent
          [{ id := 1, user_id := "u1", reminder_text := "call mum",
             scheduled_time := "2025-06-01 09:00",
             original_timezone_str := "UTC" }] 1).2)) ∧
      (mark_reminder_sent
        [{ id := 1, user_id := "u1", reminder_text := "call mum",
           scheduled_time := "2025-06-01 09:00",
           original_timezone_str := "UTC" }] 1).1 = true := by
  refine ⟨(mark_reminder_sent_idempotent _ 1).1, ?_⟩
  exact (mark_reminder_sent_idempotent _ 1).2 _ (List.mem_singleton.mpr rfl)
    rfl rfl

/-- Claim C4: a stored unsent reminder whose timezone resolves and whose
`scheduled_time` parses is selected as due exactly when
`localize(scheduled_time, timezone).toUTC() <= now`; the due list is the
per-row selection over the table (the UTC instant is re-derived from the
stored `(scheduled_time, original_timezone_str)` pair — the schema stores
no UTC column); in particular `2025-06-01 09:00` in `America/New_York`
derives exactly the UTC instant `2025-06-01 13:00`. -/
theorem reminder_due_check (now : Int) (r : ReminderRow) (tz : TZ)
    (dt : LocalDT) (h0 : r.is_sent = 0)
    (htz : tzResolve (rowTzString r) = some tz)
    (hp : parseSchedTime r.scheduled_time = some dt) :
    (rowSelect now r =
      if localToUTCSeconds tz dt ≤ now then
        some ⟨r.id, r.user_id, r.reminder_text, localToUTCSeconds tz dt,
              r.reminder_type, r.is_sent⟩
      else none) ∧
      (∀ table, (get_pending_reminders table now).1 =
        table.filterMap (rowSelect now)) ∧
      localToUTCSeconds .newYork ⟨2025, 6, 1, 9, 0⟩ =
        localToUTCSeconds .utc ⟨2025, 6, 1, 13, 0⟩ := by
  refine ⟨?_, fun table => rfl, rfl⟩
  unfold rowSelect
  rw [if_neg (by simp [h0]), htz, hp]

/-- Claim C4 witness: the reminder `2025-06-01 09:00` in
`America/New_York` is selected as due at `now` = 2025-06-01T13:00:00Z
(epoch 1748782800), and one second earlier it is not. -/
theorem reminder_due_check_witness :
    (rowSelect 1748782800
        { id := 7, user_id := "447700900000", reminder_text := "dentist",
          scheduled_time := "2025-06-01 09:00",
          original_timezone_str := "America/New_York" } =
      some { id := 7, user_id := "447700900000", reminder_text := "dentist",
             scheduled_time_utc := 1748782800, reminder_type := "reminder",
             is_sent := 0 }) ∧
      rowSelect 1748782799
        { id := 7, user_id := "447700900000", reminder_text := "dentist",
          scheduled_time := "2025-06-01 09:00",
          original_timezone_str := "America/New_York" } = none := by
  have H := reminder_due_check 1748782800
    { id := 7, user_id := "447700900000", reminder_text := "dentist",
      scheduled_time := "2025-06-01 09:00",
      original_timezone_str := "America/New_York" }
    .newYork ⟨2025, 6, 1, 9, 0⟩ rfl rfl rfl
  have H2 := reminder_due_check 1748782799
    { id := 7, user_id := "447700900000", reminder_text := "dentist",
      scheduled_time := "2025-06-01 09:00",
      original_timezone_str := "America/New_York" }
    .newYork ⟨2025, 6, 1, 9, 0⟩ rfl rfl rfl
  constructor
  · rw [H.1]
    rfl
  · rw [H2.1]
    rfl

/-- The row update of `mark_reminder_sent` keeps each row's id. -/
theorem markSentFn_id (rid : Nat) (r : ReminderRow) :
    (markSentFn rid r).id = r.id := by
  unfold markSentFn
  split_ifs <;> rfl

/-- The row update of `mark_reminder_sent` only ever writes 1 into
`is_sent`. -/
theorem mark_preserves_SentWF (j : Nat) (t : List ReminderRow)
    (h : SentWF t) : SentWF (mark_reminder_sent t j).2 := by
  intro row hrow
  simp only [mark_reminder_sent, List.mem_map] at hrow
  obtain ⟨r0, hr0, rfl⟩ := hrow
  unfold markSentFn
  split_ifs with hm
  · right
    rfl
  · exact h r0 hr0

/-- Marking any id preserves "all rows with id `rid` are sent". -/
theorem mark_preserves_AllSentId (rid j : Nat) (t : List ReminderRow)
    (h : AllSentId rid t) : AllSentId rid (mark_reminder_sent t j).2 := by
  intro row hrow hid
  simp only [mark_reminder_sent, List.mem_map] at hrow
  obtain ⟨r0, hr0, rfl⟩ := hrow
  rw [markSentFn_id] at hid
  unfold markSentFn
  split_ifs with hm
  · rfl
  · exact h r0 hr0 hid

/-- `mark_reminder_sent rid` leaves every row with id `rid` sent, provided
flags are well formed. -/
theorem mark_establishes_AllSentId (rid : Nat) (t : List ReminderRow)
    (h : SentWF t) : AllSentId rid (mark_reminder_sent t rid).2 := by
  intro row hrow hid
  simp only [mark_reminder_sent, List.mem_map] at hrow
  obtain ⟨r0, hr0, rfl⟩ := hrow
  rw [markSentFn_id] at hid
  unfold markSentFn
  rcases h r0 hr0 with h0 | h1
  · rw [if_pos (by simp [markSentMatches, hid, h0])]
  · split_ifs with hm
    · rfl
    · exact h1

/-- One loop-body step preserves any property preserved by marking. -/
theorem processDueEntry_preserves (P : List ReminderRow → Prop)
    (hP : ∀ (j : Nat) (t : List ReminderRow),
      P t → P (mark_reminder_sent t j).2)
    (outcome : Nat → SendOutcome) (acc : List Nat × List ReminderRow)
    (e : DueEntry) (h : P acc.2) : P (processDueEntry outcome acc e).2 := by
  unfold processDueEntry
  split_ifs with hs
  · exact h
  · exact hP e.id acc.2 h

/-- Folding the loop body preserves any property preserved by marking. -/
theorem foldl_processDueEntry_preserves (P : List ReminderRow → Prop)
    (hP : ∀ (j : Nat) (t : List ReminderRow),
      P t → P (mark_reminder_sent t j).2)
    (outcome : Nat → SendOutcome) (due : List DueEntry)
    (acc : List Nat × List ReminderRow) (h : P acc.2) :
    P (due.foldl (processDueEntry outcome) acc).2 := by
  induction due generalizing acc with
  | nil => exact h
  | cons d rest ih =>
      exact ih (processDueEntry outcome acc d)
        (processDueEntry_preserves P hP outcome acc d h)

/-- Once some due entry with id `rid` and an unsent snapshot flag is in the
batch, the loop leaves every row with that id marked sent. -/
theorem foldl_processDueEntry_establishes (outcome : Nat → SendOutcome)
    (due : List DueEntry) (rid : Nat) (acc : List Nat × List ReminderRow)
    (hwf : SentWF acc.2) (he : ∃ e ∈ due, e.id = rid ∧ e.is_sent ≠ 1) :
    AllSentId rid (due.foldl (processDueEntry outcome) acc).2 := by
  induction due generalizing acc with
  | nil =>
      obtain ⟨e, hmem, -⟩ := he
      exact absurd hmem (List.not_mem_nil e)
  | cons d rest ih =>
      by_cases hd : d.id = rid ∧ d.is_sent ≠ 1
      · have hall : AllSentId rid (processDueEntry outcome acc d).2 := by
          unfold processDueEntry
          rw [if_neg hd.2, hd.1]
          exact mark_establishes_AllSentId rid acc.2 hwf
        exact foldl_processDueEntry_preserves (AllSentId rid)
          (mark_preserves_AllSentId rid) outcome rest _ hall
      · obtain ⟨e, hmem, hprop⟩ := he
        rcases List.mem_cons.mp hmem with rfl | hrest
        · exact absurd hprop hd
        · exact ih (processDueEntry outcome acc d)
            (processDueEntry_preserves SentWF mark_preserves_SentWF outcome
              acc d hwf) ⟨e, hrest, hprop⟩

/-- Ids appended to the sends accumulator come from the batch. -/
theorem foldl_processDueEntry_sends (outcome : Nat → SendOutcome)
    (due : List DueEntry) (acc : List Nat × List ReminderRow) (x : Nat)
    (hx : x ∈ (due.foldl (processDueEntry outcome) acc).1) :
    x ∈ acc.1 ∨ ∃ e ∈ due, e.id = x := by
  induction due generalizing acc with
  | nil => exact Or.inl hx
  | cons d rest ih =>
      rcases ih (processDueEntry outcome acc d) hx with hacc | ⟨e, hmem, hid⟩
      · unfold processDueEntry at hacc
        split_ifs at hacc with hs
        · exact Or.inl hacc
        · simp only [List.mem_append, List.mem_singleton] at hacc
          rcases hacc with hacc | rfl
          · exact Or.inl hacc
          · exact Or.inr ⟨d, List.mem_cons_self d rest, rfl⟩
      · exact Or.inr ⟨e, List.mem_cons_of_mem d hmem, hid⟩

/-- Inversion for the per-row due selection: a selected entry carries the
row's id, and both the row and the snapshot entry are unsent. -/
theorem rowSelect_some_spec (now : Int) (r : ReminderRow) (e : DueEntry)
    (h : rowSelect now r = some e) :
    e.id = r.id ∧ r.is_sent = 0 ∧ e.is_sent = 0 := by
  unfold rowSelect at h
  split at h
  · exact absurd h (by simp)
  · rename_i h0
    rw [not_not] at h0
    split at h
    · exact absurd h (by simp)
    · split at h
      · exact absurd h (by simp)
      · split at h
        · cases h
          exact ⟨rfl, h0, h0⟩
        · exact absurd h (by simp)

/-- The bad-timezone marking pass of `get_pending_reminders` keeps the
flags well formed. -/
theorem badtz_fold_SentWF (l t : List ReminderRow) (h : SentWF t) :
    SentWF (l.foldl (fun t r => (mark_reminder_sent t r.id).2) t) := by
  induction l generalizing t with
  | nil => exact h
  | cons r rest ih => exact ih _ (mark_preserves_SentWF r.id t h)

/-- Claim C3: a stored unsent reminder that the due snapshot selects is
marked sent by one pass of the scheduler loop whatever the notifier
outcome for it (success, failure result, or raised exception), and once
every row with its id is marked sent no later pass attempts to send it
again. -/
theorem reminder_marked_sent_regardless (table : List ReminderRow)
    (now : Int) (outcome : Nat → SendOutcome) (r : ReminderRow)
    (hwf : SentWF table) (hr : r ∈ table)
    (hsel : (rowSelect now r).isSome = true) :
    AllSentId r.id (check_reminders_once table now outcome).2 ∧
      (∀ (t2 : List ReminderRow) (now2 : Int) (outcome2 : Nat → SendOutcome),
        AllSentId r.id t2 →
        r.id ∉ (check_reminders_once t2 now2 outcome2).1) := by
  constructor
  · obtain ⟨e, he⟩ : ∃ e, rowSelect now r = some e :=
      Option.isSome_iff_exists.mp hsel
    obtain ⟨hid, -, hes⟩ := rowSelect_some_spec now r e he
    have hmem : e ∈ (get_pending_reminders table now).1 :=
      List.mem_filterMap.mpr ⟨r, hr, he⟩
    have hwf2 : SentWF (get_pending_reminders table now).2 :=
      badtz_fold_SentWF _ table hwf
    exact foldl_processDueEntry_establishes outcome _ r.id
      ([], (get_pending_reminders table now).2) hwf2
      ⟨e, hmem, hid, by rw [hes]; exact Nat.zero_ne_one⟩
  · intro t2 now2 outcome2 hall hmem
    rcases foldl_processDueEntry_sends outcome2 _ _ _ hmem with hacc |
        ⟨e, hedue, hid⟩
    · exact absurd hacc (List.not_mem_nil r.id)
    · obtain ⟨row, hrow, hesel⟩ := List.mem_filterMap.mp hedue
      obtain ⟨hid2, hrow0, -⟩ := rowSelect_some_spec now2 row e hesel
      have : row.is_sent = 1 := hall row hrow (by rw [← hid2, hid])
      rw [hrow0] at this
      exact Nat.zero_ne_one this

/-- Claim C3 witness: a concrete due reminder is marked sent after one
pass for each of the three notifier outcomes, and a pass over the
resulting table sends nothing with its id. -/
theorem reminder_marked_sent_regardless_witness :
    (∀ outcome : Nat → SendOutcome,
      AllSentId 7
        (check_reminders_once
          [{ id := 7, user_id := "447700900000", reminder_text := "dentist",
             scheduled_time := "2025-06-01 09:00",
             original_timezone_str := "America/New_York" }]
          1748782800 outcome).2) ∧
      (∀ outcome2 : Nat → SendOutcome,
        7 ∉ (check_reminders_once
          [{ id := 7, user_id := "447700900000", reminder_text := "dentist",
             scheduled_time := "2025-06-01 09:00",
             original_timezone_str := "America/New_York", is_sent := 1 }]
          1748782800 outcome2).1) := by
  constructor
  · intro outcome
    exact (reminder_marked_sent_regardless
      [{ id := 7, user_id := "447700900000", reminder_text := "dentist",
         scheduled_time := "2025-06-01 09:00",
         original_timezone_str := "America/New_York" }] 1748782800 outcome
      { id := 7, user_id := "447700900000", reminder_text := "dentist",
        scheduled_time := "2025-06-01 09:00",
        original_timezone_str := "America/New_York" }
      (by intro row hrow; rw [List.mem_singleton.mp hrow]; exact Or.inl rfl)
      (List.mem_singleton.mpr rfl) rfl).1
  · intro outcome2
    exact (reminder_marked_sent_regardless
      [{ id := 7, user_id := "447700900000", reminder_text := "dentist",
         scheduled_time := "2025-06-01 09:00",
         original_timezone_str := "America/New_York" }] 1748782800
      (fun _ => .success)
      { id := 7, user_id := "447700900000", reminder_text := "dentist",
        scheduled_time := "2025-06-01 09:00",
        original_timezone_str := "America/New_York" }
      (by intro row hrow; rw [List.mem_singleton.mp hrow]; exact Or.inl rfl)
      (List.mem_singleton.mpr rfl) rfl).2
      [{ id := 7, user_id := "447700900000", reminder_text := "dentist",
         scheduled_time := "2025-06-01 09:00",
         original_timezone_str := "America/New_York", is_sent := 1 }]
      1748782800 outcome2
      (by
        intro row hrow hid
        rw [List.mem_singleton.mp hrow])

/-- Marks that all lie within one minute of `t` survive the hourly
cleaning. -/
theorem clean_eq_self (t : ℚ) (p : List ℚ)
    (h : ∀ a ∈ p, t - a < WINDOW_SIZE) : clean_old_requests t p = p := by
  unfold clean_old_requests
  rw [List.filter_eq_self]
  intro a ha
  exact decide_eq_true (h a ha)

/-- One `check_rate_limit` step from a fresh (never-blocked) state either
returns `allowed = True` with the mark recorded, or self-deadlocks in
`_block_user`; in both cases no block is recorded. -/
theorem rl_step_fresh (tl : ℚ) (p : List ℚ) (s : RLState) (t : ℚ)
    (hw : rlWindow tl p) (hwt : tl - 60 < t ∧ t ≤ tl) (hinv : RLFresh p s) :
    ((check_rate_limit t s).1 = .returns ⟨true, none, none⟩ ∧
      RLFresh (p ++ [t]) (check_rate_limit t s).2) ∨
    ((check_rate_limit t s).1 = .deadlock ∧
      (check_rate_limit t s).2.memBlock = none ∧
      (check_rate_limit t s).2.dbBlock = none) := by
  obtain ⟨hm, hd, hmk⟩ := hinv
  have hclean : clean_old_requests t p = p := by
    apply clean_eq_self
    intro a ha
    have h1 := hw a ha
    unfold WINDOW_SIZE
    linarith [hwt.2, h1.1, h1.2]
  unfold check_rate_limit is_blocked block_user
  dsimp only
  rw [hmk, hclean, hm, hd]
  dsimp only
  rw [if_neg Bool.false_ne_true]
  split_ifs with h1 h2
  · exact Or.inr ⟨rfl, rfl, rfl⟩
  · exact Or.inr ⟨rfl, rfl, rfl⟩
  · cases hsus : check_suspicious_patterns t (p ++ [t]) with
    | some pattern => exact Or.inr ⟨rfl, rfl, rfl⟩
    | none => exact Or.inl ⟨rfl, rfl, rfl, rfl⟩

/-- The tail of a cons keeps its last element. -/
theorem getLast?_cons_ne_nil {α : Type} (x : α) {l : List α} (h : l ≠ []) :
    (x :: l).getLast? = l.getLast? := by
  cases l with
  | nil => exact absurd rfl h
  | cons b u => exact List.getLast?_cons_cons

/-- Running a window-bounded sequence from a fresh state either completes
with every call allowed and no block ever recorded, or truncates at a
self-deadlock — again with no block recorded. -/
theorem rl_run_fresh (tl : ℚ) (ts p : List ℚ) (s : RLState)
    (hw : rlWindow tl ts) (hwp : rlWindow tl p) (hinv : RLFresh p s) :
    (RLFresh (p ++ ts) (run_checks ts s).2 ∧
      ∀ r ∈ (run_checks ts s).1, r = .returns ⟨true, none, none⟩) ∨
    ((run_checks ts s).1.getLast? = some .deadlock ∧
      (run_checks ts s).2.memBlock = none ∧
      (run_checks ts s).2.dbBlock = none ∧
      ∀ r ∈ (run_checks ts s).1, r ≠ .deadlock →
        r = .returns ⟨true, none, none⟩) := by
  induction ts generalizing p s with
  | nil =>
      left
      constructor
      · simpa using hinv
      · intro r hr
        simp [run_checks] at hr
  | cons a rest ih =>
      rcases rl_step_fresh tl p s a hwp (hw a (List.mem_cons_self a rest))
          hinv with ⟨hret, hfresh⟩ | ⟨hdl, hmem, hdb⟩
      · have hrun : run_checks (a :: rest) s =
            (.returns ⟨true, none, none⟩ ::
              (run_checks rest (check_rate_limit a s).2).1,
             (run_checks rest (check_rate_limit a s).2).2) := by
          simp only [run_checks, hret]
        have hwrest : rlWindow tl rest :=
          fun b hb => hw b (List.mem_cons_of_mem a hb)
        have hwpa : rlWindow tl (p ++ [a]) := by
          intro b hb
          rcases List.mem_append.mp hb with hb | hb
          · exact hwp b hb
          · rw [List.mem_singleton.mp hb]
            exact hw a (List.mem_cons_self a rest)
        rcases ih (p ++ [a]) (check_rate_limit a s).2 hwrest hwpa hfresh with
            ⟨hfr, hall⟩ | ⟨hlast, hm2, hd2, hall⟩
        · left
          rw [hrun]
          refine ⟨by simpa [List.append_assoc] using hfr, ?_⟩
          intro r hr
          rcases List.mem_cons.mp hr with rfl | hr
          · rfl
          · exact hall r hr
        · right
          rw [hrun]
          have hne : (run_checks rest (check_rate_limit a s).2).1 ≠ [] := by
            intro hnil
            rw [hnil] at hlast
            exact Option.noConfusion hlast
          refine ⟨?_, hm2, hd2, ?_⟩
          · rw [getLast?_cons_ne_nil _ hne]
            exact hlast
          · intro r hr hrne
            rcases List.mem_cons.mp hr with rfl | hr
            · rfl
            · exact hall r hr hrne
      · right
        have hrun : run_checks (a :: rest) s =
            ([.deadlock], (check_rate_limit a s).2) := by
          simp only [run_checks, hdl]
        rw [hrun]
        refine ⟨rfl, hmem, hdb, ?_⟩
        intro r hr hrne
        rw [List.mem_singleton.mp hr] at hrne
        exact absurd rfl hrne

/-- The 21st call of a window-bounded fresh trace necessarily reaches a
violation branch: with 20 marks already recorded, its burst count is 21,
so it calls `_block_user` with the lock held and deadlocks; no block is
recorded. -/
theorem rl_final_deadlock (tl : ℚ) (p : List ℚ) (s : RLState)
    (hlen : p.length = 20) (hwp : rlWindow tl p) (hinv : RLFresh p s) :
    (check_rate_limit tl s).1 = .deadlock ∧
      (check_rate_limit tl s).2.memBlock = none ∧
      (check_rate_limit tl s).2.dbBlock = none := by
  obtain ⟨hm, hd, hmk⟩ := hinv
  have hclean : clean_old_requests tl p = p := by
    apply clean_eq_self
    intro a ha
    have h1 := hwp a ha
    unfold WINDOW_SIZE
    linarith [h1.1, h1.2]
  have hfilter60 :
      ((p ++ [tl]).filter fun ts => tl - ts < BURST_WINDOW) = p ++ [tl] := by
    rw [List.filter_eq_self]
    intro a ha
    refine decide_eq_true ?_
    unfold BURST_WINDOW
    rcases List.mem_append.mp ha with ha | ha
    · have h1 := hwp a ha
      linarith [h1.1]
    · rw [List.mem_singleton.mp ha]
      linarith
  have hfilter3600 :
      ((p ++ [tl]).filter fun ts => tl - ts < WINDOW_SIZE) = p ++ [tl] := by
    rw [List.filter_eq_self]
    intro a ha
    refine decide_eq_true ?_
    unfold WINDOW_SIZE
    rcases List.mem_append.mp ha with ha | ha
    · have h1 := hwp a ha
      linarith [h1.1]
    · rw [List.mem_singleton.mp ha]
      linarith
  have hlen21 : (p ++ [tl]).length = 21 := by
    simp [hlen]
  refine ⟨?_, ?_, ?_⟩ <;>
    (unfold check_rate_limit is_blocked block_user
     dsimp only
     rw [hmk, hclean, hm, hd]
     dsimp only
     rw [if_neg Bool.false_ne_true]
     rw [hfilter3600, hfilter60, hlen21]
     rw [if_neg (by unfold MAX_REQUESTS; omega),
       if_pos (by unfold BURST_LIMIT; omega)])

/-- If a prefix of the request sequence already deadlocked, the appended
requests are never processed. -/
theorem run_checks_absorb (l1 l2 : List ℚ) (s : RLState)
    (h : (run_checks l1 s).1.getLast? = some .deadlock) :
    run_checks (l1 ++ l2) s = run_checks l1 s := by
  induction l1 generalizing s with
  | nil => simp [run_checks] at h
  | cons a l ih =>
      cases hc : (check_rate_limit a s).1 with
      | deadlock =>
          have h1 : run_checks (a :: l) s =
              ([.deadlock], (check_rate_limit a s).2) := by
            simp only [run_checks, hc]
          have h2 : run_checks ((a :: l) ++ l2) s =
              ([.deadlock], (check_rate_limit a s).2) := by
            show run_checks (a :: (l ++ l2)) s = _
            simp only [run_checks, hc]
          rw [h1, h2]
      | returns res =>
          have h1 : run_checks (a :: l) s =
              (.returns res :: (run_checks l (check_rate_limit a s).2).1,
               (run_checks l (check_rate_limit a s).2).2) := by
            simp only [run_checks, hc]
          rw [h1] at h
          dsimp only at h
          have hne : (run_checks l (check_rate_limit a s).2).1 ≠ [] := by
            intro hnil
            rw [hnil] at h
            simp [List.getLast?] at h
          rw [getLast?_cons_ne_nil _ hne] at h
          have h2 : run_checks ((a :: l) ++ l2) s =
              (.returns res ::
                (run_checks (l ++ l2) (check_rate_limit a s).2).1,
               (run_checks (l ++ l2) (check_rate_limit a s).2).2) := by
            show run_checks (a :: (l ++ l2)) s = _
            simp only [run_checks, hc]
          rw [h1, h2, ih (check_rate_limit a s).2 h]

/-- As long as no call deadlocks, a run decomposes over append. -/
theorem run_checks_append_of_returns (l1 l2 : List ℚ) (s : RLState)
    (h : ∀ r ∈ (run_checks l1 s).1, r ≠ RLCall.deadlock) :
    run_checks (l1 ++ l2) s =
      ((run_checks l1 s).1 ++ (run_checks l2 (run_checks l1 s).2).1,
       (run_checks l2 (run_checks l1 s).2).2) := by
  induction l1 generalizing s with
  | nil => simp [run_checks]
  | cons a l ih =>
      cases hc : (check_rate_limit a s).1 with
      | deadlock =>
          exfalso
          have h1 : run_checks (a :: l) s =
              ([.deadlock], (check_rate_limit a s).2) := by
            simp only [run_checks, hc]
          refine h .deadlock ?_ rfl
          rw [h1]
          exact List.mem_singleton.mpr rfl
      | returns res =>
          have h1 : run_checks (a :: l) s =
              (.returns res :: (run_checks l (check_rate_limit a s).2).1,
               (run_checks l (check_rate_limit a s).2).2) := by
            simp only [run_checks, hc]
          have h2 : run_checks ((a :: l) ++ l2) s =
              (.returns res ::
                (run_checks (l ++ l2) (check_rate_limit a s).2).1,
               (run_checks (l ++ l2) (check_rate_limit a s).2).2) := by
            show run_checks (a :: (l ++ l2)) s = _
            simp only [run_checks, hc]
          have htail : ∀ r ∈ (run_checks l (check_rate_limit a s).2).1,
              r ≠ RLCall.deadlock := by
            intro r hr
            refine h r ?_
            rw [h1]
            exact List.mem_cons_of_mem _ hr
          rw [h1, h2, ih (check_rate_limit a s).2 htail]
          dsimp only
          rw [List.cons_append]

/-- Claim C5 (as the code behaves): starting fresh, any 21
`check_rate_limit` calls from one sender within one 60-second burst
window end in a self-deadlock inside `_block_user` — at latest at the
21st call, whose burst count reaches 21.  The trace's last outcome is
`deadlock`, every call that did return was allowed (no denial is ever
produced), and no in-memory or durable block record exists at the hang:
the denial, the persisted block row and the returned `unblockAt` that the
claim describes never happen. -/
theorem burst_window_deadlocks (ts : List ℚ) (tl : ℚ)
    (hlen : ts.length = 20) (hw : rlWindow tl (ts ++ [tl])) :
    (run_checks (ts ++ [tl]) rlInit).1.getLast? = some .deadlock ∧
      (run_checks (ts ++ [tl]) rlInit).2.memBlock = none ∧
      (run_checks (ts ++ [tl]) rlInit).2.dbBlock = none ∧
      ∀ r ∈ (run_checks (ts ++ [tl]) rlInit).1, r ≠ RLCall.deadlock →
        r = .returns ⟨true, none, none⟩ := by
  have hwts : rlWindow tl ts := fun a ha => hw a (List.mem_append_left _ ha)
  have hinit : RLFresh [] rlInit := ⟨rfl, rfl, rfl⟩
  rcases rl_run_fresh tl ts [] rlInit hwts
      (fun a ha => absurd ha (List.not_mem_nil a)) hinit with
      ⟨hfr, hall⟩ | ⟨hlast, hm, hd, hall⟩
  · have hfr2 : RLFresh ts (run_checks ts rlInit).2 := by simpa using hfr
    obtain ⟨hdl, hm2, hd2⟩ :=
      rl_final_deadlock tl ts (run_checks ts rlInit).2 hlen hwts hfr2
    have happ := run_checks_append_of_returns ts [tl] rlInit
      (fun r hr => by
        rw [hall r hr]
        intro hcon
        exact RLCall.noConfusion hcon)
    have hruntl : run_checks [tl] (run_checks ts rlInit).2 =
        ([.deadlock], (check_rate_limit tl (run_checks ts rlInit).2).2) := by
      simp only [run_checks, hdl]
    rw [happ, hruntl]
    dsimp only
    refine ⟨List.getLast?_concat _, hm2, hd2, ?_⟩
    intro r hr hrne
    rcases List.mem_append.mp hr with hr | hr
    · exact hall r hr
    · rw [List.mem_singleton.mp hr] at hrne
      exact absurd rfl hrne
  · rw [run_checks_absorb ts [tl] rlInit hlast]
    exact ⟨hlast, hm, hd, hall⟩

/-- Claim C5 witness: 21 requests all at time 0 from a fresh state — the
trace ends in the `_block_user` self-deadlock, every returned result was
allowed, and no block record of any kind exists. -/
theorem burst_window_deadlocks_witness :
    (run_checks (List.replicate 20 (0 : ℚ) ++ [0]) rlInit).1.getLast? =
        some .deadlock ∧
      (run_checks (List.replicate 20 (0 : ℚ) ++ [0]) rlInit).2.memBlock =
        none ∧
      (run_checks (List.replicate 20 (0 : ℚ) ++ [0]) rlInit).2.dbBlock =
        none ∧
      ∀ r ∈ (run_checks (List.replicate 20 (0 : ℚ) ++ [0]) rlInit).1,
        r ≠ RLCall.deadlock → r = .returns ⟨true, none, none⟩ := by
  apply burst_window_deadlocks
  · simp
  · intro a ha
    have ha0 : a = 0 := by
      rcases List.mem_append.mp ha with h | h
      · exact List.eq_of_mem_replicate h
      · exact List.mem_singleton.mp h
    rw [ha0]
    norm_num

end Botlet
